import Mathlib

/-!
Shallow embedding of the image-gen MCP server (`src/index.ts`).

The program is a single-file Node/TypeScript MCP server.  Its effectful
environment (HTTP responses, the `sharp` image library, the Replicate
backend, the wall clock, `Math.random` temp-name generation, the
environment variables) is modelled as an explicit `World` record of
oracles, and the file system as an association list from paths to byte
sizes.  Every operation of the server becomes a pure Lean function from a
`World` and a file-system state to an updated file-system state plus a
result; thrown JS exceptions become `Except` errors, and the top-level
`try/catch` of the tool-call handler becomes the conversion of those
errors into `{success:false, error}` envelopes.  The unbounded redirect
recursion of the two download functions is made structural with a fuel
parameter; running out of fuel is a distinguished error that stands for
nontermination of the source recursion.
-/

/-! ## File-system model

The file system is an association list from absolute path strings to byte
sizes (the only observation the program makes of file contents is
`fs.statSync(..).size`, existence, and directory listings). -/

def FS : Type := List (String × Nat)

def fsLookup (fs : FS) (p : String) : Option Nat :=
  match fs with
  | [] => none
  | (k, v) :: rest => if k = p then some v else fsLookup rest p

/-- Model of `fs.unlink` / `fs.unlinkSync`: remove every entry at the path. -/
def fsDelete (fs : FS) (p : String) : FS :=
  match fs with
  | [] => []
  | (k, v) :: rest => if k = p then fsDelete rest p else (k, v) :: fsDelete rest p

/-- Model of writing a file (`fs.createWriteStream` + finish, or
`sharp(..).toFile`): the path now holds exactly `n` bytes. -/
def fsInsert (fs : FS) (p : String) (n : Nat) : FS :=
  (p, n) :: fsDelete fs p

theorem fsLookup_delete_self (fs : FS) (p : String) :
    fsLookup (fsDelete fs p) p = none := by
  induction fs with
  | nil => rfl
  | cons e rest ih =>
    obtain ⟨k, v⟩ := e
    by_cases h : k = p <;> simp [fsDelete, fsLookup, h, ih]

theorem fsLookup_cons (k : String) (v : Nat) (rest : FS) (x : String) :
    fsLookup ((k, v) :: rest) x = if k = x then some v else fsLookup rest x := rfl

theorem fsDelete_cons (k : String) (v : Nat) (rest : FS) (p : String) :
    fsDelete ((k, v) :: rest) p =
      if k = p then fsDelete rest p else (k, v) :: fsDelete rest p := rfl

theorem fsLookup_delete_ne (fs : FS) (p x : String) (h : x ≠ p) :
    fsLookup (fsDelete fs p) x = fsLookup fs x := by
  induction fs with
  | nil => rfl
  | cons e rest ih =>
    obtain ⟨k, v⟩ := e
    rw [fsDelete_cons]
    by_cases hk : k = p
    · rw [if_pos hk, ih, fsLookup_cons,
        if_neg (fun hkx => h (by rw [← hkx]; exact hk))]
    · rw [if_neg hk, fsLookup_cons, fsLookup_cons]
      by_cases hx : k = x
      · rw [if_pos hx, if_pos hx]
      · rw [if_neg hx, if_neg hx, ih]

theorem fsLookup_insert_self (fs : FS) (p : String) (n : Nat) :
    fsLookup (fsInsert fs p n) p = some n := by
  simp [fsInsert, fsLookup]

theorem fsLookup_insert_ne (fs : FS) (p x : String) (n : Nat) (h : x ≠ p) :
    fsLookup (fsInsert fs p n) x = fsLookup fs x := by
  rw [fsInsert, fsLookup_cons, if_neg (fun hpx => h hpx.symm),
    fsLookup_delete_ne fs p x h]

/-! ## Environment model -/

/-- Outcome of streaming a response body into a file: the body is `n`
bytes, or the write stream errors (the `fileStream.on("error")` path). -/
inductive BodyOutcome where
  | bytes (n : Nat)
  | streamError
deriving DecidableEq

/-- Outcome of `http(s).get(url, ...)`: a response with a status code, an
optional `Location` header and a body; a request error; or expiry of the
60-second timeout set with `request.setTimeout`. -/
inductive FetchOutcome where
  | response (status : Nat) (location : Option String) (body : BodyOutcome)
  | requestError
  | timeout
deriving DecidableEq

/-- The observable part of `sharp(path).metadata()`: each field may be
absent (JS `undefined`). -/
structure SharpMetadata where
  width : Option Nat
  height : Option Nat
  format : Option String
deriving DecidableEq

/-- The ambient effectful environment, as oracles.
`compressFn quality maxWidth maxHeight inputSize` is the byte size of the
JPEG that `sharp` writes, or `none` when the `sharp` pipeline throws
(e.g. the input is not a decodable image).  `clock i` is the `Date.now()`
value observed when the filename of output index `i` is derived, and
`tmps i d` the `temp_<Date.now()>_<random>` name generated by the `d`-th
redirect level of the download for output index `i`. -/
structure World where
  http : String → FetchOutcome
  compressFn : Nat → Option Nat → Option Nat → Nat → Option Nat
  meta : String → SharpMetadata
  apiToken : Option String
  runModel : String → Except String (List String)
  outDir : String
  outDirExists : Bool
  clock : Nat → Nat
  tmps : Nat → Nat → String

/-- Model of `path.join(dir, name)` for the simple two-segment joins the
program performs. -/
def pathJoin (dir name : String) : String := dir ++ "/" ++ name

/-! ## Model registry (`MODELS`, `DEFAULT_MODEL`) -/

structure ModelConfig where
  id : String
  name : String
  provider : String
  supportsReferenceImage : Bool
  cost : String
  description : String
deriving DecidableEq

def MODELS : List (String × ModelConfig) :=
  [ ("imagen-3",
      ⟨"google-deepmind/imagen-3.0-generate-001", "Google Imagen 3", "replicate",
        false, "$0.04", "Google's latest image generation model. High quality."⟩),
    ("imagen-3-fast",
      ⟨"google-deepmind/imagen-3.0-fast-generate-001", "Google Imagen 3 Fast", "replicate",
        false, "$0.02", "Faster, cheaper version of Imagen 3."⟩),
    ("nano-banana-pro",
      ⟨"google-deepmind/nano-banana-pro", "Nano Banana Pro", "replicate",
        true, "$0.05",
        "Google's advanced model. Excellent text rendering and reference image support."⟩),
    ("flux-schnell",
      ⟨"black-forest-labs/flux-schnell", "Flux Schnell", "replicate",
        false, "$0.003", "Fastest and cheapest. Good for quick iterations."⟩),
    ("flux-dev",
      ⟨"black-forest-labs/flux-dev", "Flux Dev", "replicate",
        false, "$0.025", "Higher quality, better details."⟩),
    ("flux-pro",
      ⟨"black-forest-labs/flux-1.1-pro", "Flux 1.1 Pro", "replicate",
        false, "$0.04", "Professional quality. Good text rendering."⟩),
    ("flux-redux",
      ⟨"black-forest-labs/flux-redux-dev", "Flux Redux", "replicate",
        true, "$0.025", "For image-to-image and style transfer."⟩) ]

def DEFAULT_MODEL : String := "imagen-3"

def DEFAULT_COMPRESSION_QUALITY : Nat := 85

/-- Model of the JS object-key lookup `MODELS[model]`. -/
def lookupModel (key : String) : Option ModelConfig :=
  (MODELS.find? (fun e => e.1 = key)).map (·.2)

def modelKeys : List String := MODELS.map (·.1)

/-! ## Filename derivation (`generateFilenameFromPrompt`) -/

def stopWords : List String :=
  [ "a", "an", "the", "and", "or", "but", "in", "on", "at", "to", "for",
    "of", "with", "by", "from", "as", "is", "was", "are", "were", "been",
    "be", "have", "has", "had", "do", "does", "did", "will", "would", "could",
    "should", "may", "might", "must", "shall", "can", "need", "it", "its",
    "this", "that", "these", "those", "i", "you", "he", "she", "we", "they",
    "what", "which", "who", "where", "when", "why", "how", "all", "each",
    "every", "both", "few", "more", "most", "other", "some", "such", "no",
    "not", "only", "own", "same", "so", "than", "too", "very", "just", "also",
    "image", "picture", "photo", "generate", "create", "make", "show" ]

/-- The two quote characters of the regex `/["']/`. -/
def quoteChars : List Char := [Char.ofNat 34, Char.ofNat 39]

/-- Is `c` in the character class `[a-z0-9\s-]` (after lowercasing)?
A character outside the class is replaced by a space before splitting;
a whitespace character kept by the class is itself a split point, so
classifying exotic whitespace either way yields the same token list. -/
def keptChar (c : Char) : Bool :=
  (Char.ofNat 97 ≤ c && c ≤ Char.ofNat 122) ||
  (Char.ofNat 48 ≤ c && c ≤ Char.ofNat 57) ||
  c.isWhitespace || c = Char.ofNat 45

/-- Split a character list at whitespace, keeping the (possibly empty)
pieces between separators; the worker carries the reversed current
piece. -/
def splitWhitespaceAux : List Char → List Char → List String
  | [], acc => [String.mk acc.reverse]
  | c :: cs, acc =>
    if c.isWhitespace then String.mk acc.reverse :: splitWhitespaceAux cs []
    else splitWhitespaceAux cs (c :: acc)

/-- The whitespace-separated tokens of the prompt after lowercasing,
quote removal and replacement of out-of-class characters by spaces
(`prompt.toLowerCase().replace(/["']/g," ").replace(/[^a-z0-9\s-]/g," ").split(/\s+/)`).
Lowercasing is modelled per character (ASCII); a non-ASCII uppercase
letter is left as is and then replaced by a space by the character class,
as its non-ASCII lowercase form would be.  JS `split(/\s+/)` can yield an
empty leading token; `splitWhitespaceAux` yields empty pieces between
adjacent separators — all are removed by the `length > 2` filter
downstream, so the surviving tokens agree. -/
def promptTokens (prompt : String) : List String :=
  let lowered := prompt.data.map Char.toLower
  let noQuotes := lowered.map (fun c => if c ∈ quoteChars then ' ' else c)
  let cleaned := noQuotes.map (fun c => if keptChar c then c else ' ')
  splitWhitespaceAux cleaned []

/-- The token filter `word => word.length > 2 && !stopWords.has(word)`.
Tokens are ASCII after cleaning, so JS UTF-16 length and Lean codepoint
length agree. -/
def keepToken (w : String) : Bool :=
  decide (w.length > 2) && !(stopWords.contains w)

/-- Model of `generateFilenameFromPrompt(prompt, index)`; the ambient
`Date.now()` is the explicit `timestamp` argument. -/
def generateFilenameFromPrompt (prompt : String) (index : Nat) (timestamp : Nat) : String :=
  let words := ((promptTokens prompt).filter keepToken).take 5
  let words := if words.isEmpty then ["image"] else words
  let slug := String.intercalate "_" words
  let indexSuffix := if index > 0 then "_" ++ toString (index + 1) else ""
  slug ++ "_" ++ toString timestamp ++ indexSuffix

/-! ## Download and compression pipeline -/

/-- The JS exceptions the pipeline can throw.  `outOfFuel` is the
artificial marker for exhaustion of the recursion fuel that replaces the
source's unbounded redirect recursion. -/
inductive StepError where
  | httpError (status : Nat)
  | requestError
  | timeout
  | streamError
  | statError (path : String)
  | compressionError
  | jsTypeError
  | outOfFuel
deriving DecidableEq

/-- The message carried by each thrown error, as rendered into the
`{success:false, error}` envelope by the top-level catch.  Messages of
exceptions raised inside the opaque libraries (`sharp`, `fs`, the V8
runtime) are fixed representatives of the library's wording. -/
def stepErrorMessage : StepError → String
  | .httpError status => "Failed to download image: HTTP " ++ toString status
  | .requestError => "socket hang up"
  | .timeout => "Download timeout"
  | .streamError => "write stream error"
  | .statError p => "ENOENT: no such file or directory, stat " ++ p
  | .compressionError => "Input buffer contains unsupported image format"
  | .jsTypeError => "Cannot read properties of undefined"
  | .outOfFuel => "redirect recursion did not terminate"

/-- Model of `Math.round` on JS numbers: round half toward positive
infinity. -/
def jsMathRound (x : ℚ) : ℤ := ⌊x + 1 / 2⌋

/-- The expression `Math.round((1 - compressedSize / originalSize) * 100)`
shared by `compressImage` and `downloadAndCompressImage`. -/
def savedPercentCalc (originalSize compressedSize : Nat) : ℤ :=
  jsMathRound ((1 - (compressedSize : ℚ) / (originalSize : ℚ)) * 100)

/-- Model of `downloadImage(url, filename)`: the returned string is the
destination path the promise resolves with. -/
def downloadImage (w : World) : Nat → String → String → FS → FS × Except StepError String
  | 0, _, _, fs => (fs, .error .outOfFuel)
  | fuel + 1, url, outputPath, fs =>
    match w.http url with
    | .requestError => (fs, .error .requestError)
    | .timeout => (fs, .error .timeout)
    | .response status location body =>
      match decide (status = 301 ∨ status = 302), location with
      | true, some redirectUrl => downloadImage w fuel redirectUrl outputPath fs
      | _, _ =>
        if status ≠ 200 then (fs, .error (.httpError status))
        else
          match body with
          | .streamError => (fsDelete (fsInsert fs outputPath 0) outputPath, .error .streamError)
          | .bytes n => (fsInsert fs outputPath n, .ok outputPath)

/-- The record returned by `downloadAndCompressImage`. -/
structure DacResult where
  path : String
  originalSize : Nat
  compressedSize : Nat
  savedPercent : ℤ
deriving DecidableEq

/-- The part of `downloadAndCompressImage` after its download promise
resolves: `statSync(tempPath)`, the `sharp` re-encode to `finalPath`,
`unlinkSync(tempPath)`, `statSync(finalPath)`, and the result record.
This continuation runs even when the download promise was resolved by a
redirect's recursive call (which never wrote `tempPath`). -/
def dacAfterDownload (w : World) (quality : Nat) (tempPath finalPath : String) (fs : FS) :
    FS × Except StepError DacResult :=
  match fsLookup fs tempPath with
  | none => (fs, .error (.statError tempPath))
  | some originalSize =>
    match w.compressFn quality none none originalSize with
    | none => (fs, .error .compressionError)
    | some outBytes =>
      match fsLookup (fsDelete (fsInsert fs finalPath outBytes) tempPath) finalPath with
      | none => (fsDelete (fsInsert fs finalPath outBytes) tempPath, .error (.statError finalPath))
      | some compressedSize =>
        (fsDelete (fsInsert fs finalPath outBytes) tempPath,
          .ok ⟨finalPath, originalSize, compressedSize,
            savedPercentCalc originalSize compressedSize⟩)

/-- Model of `downloadAndCompressImage(url, filename, compressionQuality)`.
`tmp d` is the `temp_<Date.now()>_<random>` path generated by the call at
redirect depth `d`; on a 301/302 with a `Location` header the code
recurses with a fresh temp name, discards the recursive result, and then
falls through to `dacAfterDownload` on its own (never written) temp
path. -/
def downloadAndCompressImage (w : World) (quality : Nat) :
    Nat → (Nat → String) → String → String → FS → FS × Except StepError DacResult
  | 0, _, _, _, fs => (fs, .error .outOfFuel)
  | fuel + 1, tmp, finalPath, url, fs =>
    match w.http url with
    | .requestError => (fs, .error .requestError)
    | .timeout => (fs, .error .timeout)
    | .response status location body =>
      match decide (status = 301 ∨ status = 302), location with
      | true, some redirectUrl =>
        match downloadAndCompressImage w quality fuel (fun d => tmp (d + 1)) finalPath redirectUrl fs with
        | (fs1, .error e) => (fs1, .error e)
        | (fs1, .ok _) => dacAfterDownload w quality (tmp 0) finalPath fs1
      | _, _ =>
        if status ≠ 200 then (fs, .error (.httpError status))
        else
          match body with
          | .streamError => (fsDelete (fsInsert fs (tmp 0) 0) (tmp 0), .error .streamError)
          | .bytes n => dacAfterDownload w quality (tmp 0) finalPath (fsInsert fs (tmp 0) n)

/-- The record returned by `compressImage`. -/
structure CompressStats where
  originalSize : Nat
  compressedSize : Nat
  savedPercent : ℤ
deriving DecidableEq

/-- Model of `compressImage(inputPath, outputPath, options)`; `path.resolve`
is the identity on the already-absolute paths of the model. -/
def compressImage (w : World) (inputPath outputPath : String) (quality : Nat)
    (maxWidth maxHeight : Option Nat) (fs : FS) : FS × Except String CompressStats :=
  match fsLookup fs inputPath with
  | none => (fs, .error ("Input image not found: " ++ inputPath))
  | some originalSize =>
    match w.compressFn quality maxWidth maxHeight originalSize with
    | none => (fs, .error (stepErrorMessage .compressionError))
    | some outBytes =>
      match fsLookup (fsInsert fs outputPath outBytes) outputPath with
      | none => (fsInsert fs outputPath outBytes, .error (stepErrorMessage (.statError outputPath)))
      | some compressedSize =>
        (fsInsert fs outputPath outBytes,
          .ok ⟨originalSize, compressedSize, savedPercentCalc originalSize compressedSize⟩)

/-- The record returned by `getImageMetadata`. -/
structure ImageInfo where
  width : Nat
  height : Nat
  format : String
  size : Nat
deriving DecidableEq

/-- Model of the JS `||` fallback on a possibly-missing number
(`metadata.width || 0`): `undefined` and the falsy `0` both yield the
default. -/
def jsOrNat (o : Option Nat) (d : Nat) : Nat :=
  match o with
  | some v => if v = 0 then d else v
  | none => d

/-- Model of the JS `||` fallback on a possibly-missing string
(`metadata.format || "unknown"`): `undefined` and the falsy empty string
both yield the default. -/
def jsOrStr (o : Option String) (d : String) : String :=
  match o with
  | some s => if s = "" then d else s
  | none => d

/-- Model of `getImageMetadata(imagePath)`. -/
def getImageMetadata (w : World) (imagePath : String) (fs : FS) : Except String ImageInfo :=
  match fsLookup fs imagePath with
  | none => .error ("Image not found: " ++ imagePath)
  | some size =>
    let md := w.meta imagePath
    .ok ⟨jsOrNat md.width 0, jsOrNat md.height 0, jsOrStr md.format "unknown", size⟩

/-! ## Generation pipeline and tool-call handler -/

/-- The final path `path.join(OUTPUT_DIR, generateFilenameFromPrompt(prompt, i) + ".jpg")`
derived for output index `i`. -/
def finalPathOf (w : World) (prompt : String) (i : Nat) : String :=
  pathJoin w.outDir (generateFilenameFromPrompt prompt i (w.clock i) ++ ".jpg")

/-- The temp path `path.join(OUTPUT_DIR, "temp_" + Date.now() + "_" + random)`
generated at redirect depth `d` of the download for output index `i`. -/
def tmpPathOf (w : World) (i d : Nat) : String :=
  pathJoin w.outDir (w.tmps i d)

/-- The per-URL loop of the `generate_image` handler: for each URL, derive
a filename and run `downloadAndCompressImage`; the first thrown error
aborts the loop.  A missing `prompt` (the JS destructuring produced
`undefined`) throws a `TypeError` at the first `prompt.toLowerCase()`
call, i.e. at the first filename derivation. -/
def generateLoop (w : World) (quality fuel : Nat) (prompt : Option String) :
    Nat → List String → FS → FS × Except StepError (List DacResult)
  | _, [], fs => (fs, .ok [])
  | i, url :: rest, fs =>
    match prompt with
    | none => (fs, .error .jsTypeError)
    | some p =>
      match downloadAndCompressImage w quality fuel (tmpPathOf w i) (finalPathOf w p i) url fs with
      | (fs1, .error e) => (fs1, .error e)
      | (fs1, .ok r) =>
        match generateLoop w quality fuel prompt (i + 1) rest fs1 with
        | (fs2, .error e) => (fs2, .error e)
        | (fs2, .ok rs) => (fs2, .ok (r :: rs))

/-- The argument object of a tool call, mirroring the unvalidated
`args as {...}` casts of the handler: every field is optional, absent
fields are JS `undefined`. -/
structure Args where
  prompt : Option String := none
  model : Option String := none
  reference_image : Option String := none
  aspect_ratio : Option String := none
  compression_quality : Option Nat := none
  num_outputs : Option Int := none
  prompt_strength : Option ℚ := none
  input_path : Option String := none
  output_path : Option String := none
  quality : Option Nat := none
  max_width : Option Nat := none
  max_height : Option Nat := none
  image_path : Option String := none

/-- The payload of a successful tool result (the structured document the
handler serializes to JSON text; the `"<bytes/1024> KB"` rendering of the
byte sizes is presentation only and elided). -/
inductive ToolPayload where
  | generated (results : List DacResult)
  | compressed (inputPath outputPath : String) (stats : CompressStats)
  | imageInfo (path : String) (info : ImageInfo)
  | models (defaultModel : String) (registry : List (String × ModelConfig))
  | listing (outputDirectory : String) (files : List (String × Nat))
  | outputDir (outputDirectory : String) (dirExists : Bool)
deriving DecidableEq

/-- A tool-call response: either a success document, or (through the
top-level catch) the uniform error envelope
`{success:false, error: message}` with `isError:true`. -/
inductive ToolResult where
  | ok (payload : ToolPayload)
  | err (message : String)
deriving DecidableEq

/-- Model of `Math.min(Math.max(num_outputs, 1), 4)` (the clamp applied
when building the backend payload). -/
def clampNumOutputs (n : Int) : Int := min (max n 1) 4

def unknownModelMessage (model : String) : String :=
  "Unknown model: " ++ model ++ ". Available models: " ++ String.intercalate ", " modelKeys

def noReferenceSupportMessage (model : String) : String :=
  "Model " ++ model ++ " does not support reference images. Use flux-redux or nano-banana-pro instead."

def missingTokenMessage : String :=
  "REPLICATE_API_TOKEN environment variable is required. Get your API token from https://replicate.com/account/api-tokens"

/-- The `generate_image` case of the tool-call handler, with the thrown
errors of every step already folded into `.err` envelopes by the
surrounding catch.  The backend payload (aspect ratio, clamped
`num_outputs`, base64 reference-image data URI, `prompt_strength`) is
consumed by the opaque backend and therefore not observable beyond the
reference-image existence check that building it performs. -/
def handleGenerateImage (w : World) (fuel : Nat) (a : Args) (fs : FS) : FS × ToolResult :=
  let model := a.model.getD DEFAULT_MODEL
  match lookupModel model with
  | none => (fs, .err (unknownModelMessage model))
  | some modelConfig =>
    if a.reference_image.isSome && !modelConfig.supportsReferenceImage then
      (fs, .err (noReferenceSupportMessage model))
    else
      match w.apiToken with
      | none => (fs, .err missingTokenMessage)
      | some _ =>
        let refError : Option String :=
          match a.reference_image with
          | some rp =>
            if modelConfig.supportsReferenceImage then
              if (fsLookup fs rp).isNone then some ("Reference image not found: " ++ rp) else none
            else none
          | none => none
        match refError with
        | some msg => (fs, .err msg)
        | none =>
          match w.runModel modelConfig.id with
          | .error msg => (fs, .err msg)
          | .ok urls =>
            match generateLoop w (a.compression_quality.getD DEFAULT_COMPRESSION_QUALITY)
                fuel a.prompt 0 urls fs with
            | (fs1, .error e) => (fs1, .err (stepErrorMessage e))
            | (fs1, .ok results) => (fs1, .ok (.generated results))

/-- Model of the default output path
``path.join(path.dirname(input), `<basename-without-ext>_compressed.jpg`)``. -/
def defaultCompressedPath (inputPath : String) : String :=
  let parts := inputPath.splitOn "/"
  let base := parts.getLastD inputPath
  let dir := String.intercalate "/" (parts.dropLast)
  let stem :=
    match (base.splitOn ".").dropLast with
    | [] => base
    | ps => String.intercalate "." ps
  (if parts.length ≤ 1 then "." else dir) ++ "/" ++ stem ++ "_compressed.jpg"

/-- The `compress_image` case of the tool-call handler. -/
def handleCompressImage (w : World) (a : Args) (fs : FS) : FS × ToolResult :=
  match a.input_path with
  | none => (fs, .err (stepErrorMessage .jsTypeError))
  | some inputPath =>
    let finalOutputPath := a.output_path.getD (defaultCompressedPath inputPath)
    match compressImage w inputPath finalOutputPath (a.quality.getD DEFAULT_COMPRESSION_QUALITY)
        a.max_width a.max_height fs with
    | (fs1, .error msg) => (fs1, .err msg)
    | (fs1, .ok stats) => (fs1, .ok (.compressed inputPath finalOutputPath stats))

/-- The `get_image_info` case of the tool-call handler. -/
def handleGetImageInfo (w : World) (a : Args) (fs : FS) : FS × ToolResult :=
  match a.image_path with
  | none => (fs, .err (stepErrorMessage .jsTypeError))
  | some imagePath =>
    match getImageMetadata w imagePath fs with
    | .error msg => (fs, .err msg)
    | .ok info => (fs, .ok (.imageInfo imagePath info))

/-- Does the filename match `/\.(png|jpg|jpeg|webp|gif)$/i`? -/
def hasImageExtension (f : String) : Bool :=
  let l := f.data.map Char.toLower
  List.isSuffixOf ".png".data l || List.isSuffixOf ".jpg".data l ||
  List.isSuffixOf ".jpeg".data l || List.isSuffixOf ".webp".data l ||
  List.isSuffixOf ".gif".data l

/-- The `list_generated_images` listing: the files of the output
directory with a recognized image extension.  The model's file system
carries no creation times, so the newest-first sort of the source is the
identity permutation here. -/
def listGeneratedEntries (fs : FS) : List (String × Nat) :=
  fs.filter (fun e => hasImageExtension e.1)

/-- Model of `handleToolCall(name, args)`: the `switch` over the six tool
names, the `default: throw new Error("Unknown tool: ...")`, and the
surrounding `try/catch` that turns every thrown error into the
`{success:false, error}` envelope.  Totality of this function is the
model of "callers always receive a well-formed result envelope". -/
def handleToolCall (w : World) (fuel : Nat) (name : String) (a : Args) (fs : FS) :
    FS × ToolResult :=
  if name = "generate_image" then handleGenerateImage w fuel a fs
  else if name = "compress_image" then handleCompressImage w a fs
  else if name = "get_image_info" then handleGetImageInfo w a fs
  else if name = "list_models" then (fs, .ok (.models DEFAULT_MODEL MODELS))
  else if name = "list_generated_images" then
    (fs, .ok (.listing w.outDir (listGeneratedEntries fs)))
  else if name = "get_output_directory" then (fs, .ok (.outputDir w.outDir w.outDirExists))
  else (fs, .err ("Unknown tool: " ++ name))

/-- The six tool names registered with the server. -/
def toolNames : List String :=
  [ "generate_image", "compress_image", "get_image_info",
    "list_models", "list_generated_images", "get_output_directory" ]

/-! ## Concrete test environments

A small world used to instantiate the theorems at concrete inputs:
`"u0"` serves a 100-byte image, `"u1"` answers 404, `"r"` redirects to
`"u0"`; `sharp` halves the byte size; the backend returns the two URLs
`"u0"` and `"u1"`. -/

def wPipe : World where
  http := fun u =>
    if u = "u0" then .response 200 none (.bytes 100)
    else if u = "u1" then .response 404 none (.bytes 0)
    else if u = "r" then .response 302 (some "u0") (.bytes 0)
    else .requestError
  compressFn := fun _ _ _ n => some (n / 2)
  meta := fun _ => ⟨none, none, none⟩
  apiToken := some "tok"
  runModel := fun _ => .ok ["u0", "u1"]
  outDir := "out"
  outDirExists := true
  clock := fun i => i
  tmps := fun i d => "temp_" ++ toString i ++ "_" ++ toString d

/-- The same world with a `sharp` pipeline that always throws. -/
def wCFail : World :=
  { wPipe with compressFn := fun _ _ _ _ => none }

/-- A fixed family of temp paths for direct invocations of
`downloadAndCompressImage`. -/
def tmpF : Nat → String := fun d => "out/temp_" ++ toString d

/-! # Theorems -/

/-- C4.  For every download whose response has a 3xx status other than a
301/302-with-Location, or any non-2xx status, both `downloadImage` and the
download phase of `downloadAndCompressImage` fail with the
`Failed to download image: HTTP <status>` error carrying the received
status code, and write no file (the file system is returned unchanged). -/
theorem download_non_success_status_fails (w : World) (q fuel : Nat) (tmp : Nat → String)
    (finalPath outputPath url : String) (fs : FS) (status : Nat) (loc : Option String)
    (body : BodyOutcome)
    (hhttp : w.http url = .response status loc body)
    (hredir : ¬((status = 301 ∨ status = 302) ∧ loc.isSome))
    (hbad : (300 ≤ status ∧ status < 400) ∨ ¬(200 ≤ status ∧ status < 300)) :
    downloadImage w (fuel + 1) url outputPath fs = (fs, .error (.httpError status))
    ∧ downloadAndCompressImage w q (fuel + 1) tmp finalPath url fs
        = (fs, .error (.httpError status)) := by
  have h200 : status ≠ 200 := by
    rintro rfl
    rcases hbad with ⟨h3, _⟩ | h2
    · omega
    · exact h2 (by omega)
  by_cases hs : status = 301 ∨ status = 302
  · have hl : loc = none := by
      cases loc with
      | none => rfl
      | some l => exact absurd ⟨hs, rfl⟩ hredir
    subst hl
    constructor
    · simp [downloadImage, hhttp, hs, h200]
    · simp [downloadAndCompressImage, hhttp, hs, h200]
  · constructor
    · simp [downloadImage, hhttp, hs, h200]
    · simp [downloadAndCompressImage, hhttp, hs, h200]

/-- Witness for C4 at a concrete 404 response. -/
theorem download_non_success_status_fails_witness :
    downloadImage wPipe 1 "u1" "out/x.jpg" [] = ([], .error (.httpError 404))
    ∧ downloadAndCompressImage wPipe 85 1 tmpF "out/x.jpg" "u1" []
        = ([], .error (.httpError 404)) :=
  download_non_success_status_fails wPipe 85 0 tmpF "out/x.jpg" "out/x.jpg" "u1" []
    404 none (.bytes 0) rfl (by decide) (by decide)

/-- C5.  A `generate_image` call whose model key does not resolve in the
registry produces the error envelope (no unhandled fault: the handler is a
total function into `ToolResult`), with a message containing
"Unknown model". -/
theorem generate_image_unknown_model_envelope (w : World) (fuel : Nat) (a : Args) (fs : FS)
    (h : lookupModel (a.model.getD DEFAULT_MODEL) = none) :
    ∃ msg, handleToolCall w fuel "generate_image" a fs = (fs, .err msg)
      ∧ "Unknown model".data <:+: msg.data := by
  refine ⟨unknownModelMessage (a.model.getD DEFAULT_MODEL), ?_, ?_⟩
  · simp [handleToolCall, handleGenerateImage, h]
  · apply List.IsPrefix.isInfix
    have hsplit : ("Unknown model: " : String) = "Unknown model" ++ ": " := by decide
    rw [unknownModelMessage, hsplit]
    simp only [String.data_append, List.append_assoc]
    exact List.prefix_append _ _

/-- Witness for C5 at `model = "unknown-model"`. -/
theorem generate_image_unknown_model_envelope_witness :
    ∃ msg, handleToolCall wPipe 1 "generate_image"
        { prompt := some "test prompt", model := some "unknown-model" } [] = ([], .err msg)
      ∧ "Unknown model".data <:+: msg.data :=
  generate_image_unknown_model_envelope wPipe 1
    { prompt := some "test prompt", model := some "unknown-model" } [] (by decide)

/-- C9.  A tool call whose name is none of the six registered operations
falls to the handler's default case and yields the same uniform error
envelope as domain failures, with a message containing "Unknown tool";
totality of `handleToolCall` is the absence of a transport-level fault. -/
theorem unknown_tool_envelope (w : World) (fuel : Nat) (name : String) (a : Args) (fs : FS)
    (h : name ∉ toolNames) :
    ∃ msg, handleToolCall w fuel name a fs = (fs, .err msg)
      ∧ "Unknown tool".data <:+: msg.data := by
  simp only [toolNames, List.mem_cons, List.mem_singleton, not_or] at h
  obtain ⟨h1, h2, h3, h4, h5, h6⟩ := h
  refine ⟨"Unknown tool: " ++ name, ?_, ?_⟩
  · simp [handleToolCall, h1, h2, h3, h4, h5, h6]
  · apply List.IsPrefix.isInfix
    have hsplit : ("Unknown tool: " : String) = "Unknown tool" ++ ": " := by decide
    rw [hsplit]
    simp only [String.data_append, List.append_assoc]
    exact List.prefix_append _ _

/-- Witness for C9 at the tool name `"unknown_tool"`. -/
theorem unknown_tool_envelope_witness :
    ∃ msg, handleToolCall wPipe 1 "unknown_tool" {} [] = ([], .err msg)
      ∧ "Unknown tool".data <:+: msg.data :=
  unknown_tool_envelope wPipe 1 "unknown_tool" {} [] (by decide)

/-- C10.  For every existing file, `getImageMetadata` succeeds; its `size`
is the file's actual byte length, and a missing width, height or format is
substituted by `0`, `0` or `"unknown"` respectively. -/
theorem image_info_missing_metadata_defaults (w : World) (p : String) (fs : FS) (sz : Nat)
    (hexists : fsLookup fs p = some sz) :
    ∃ info, getImageMetadata w p fs = .ok info ∧ info.size = sz
      ∧ ((w.meta p).width = none → info.width = 0)
      ∧ ((w.meta p).height = none → info.height = 0)
      ∧ ((w.meta p).format = none → info.format = "unknown") := by
  refine ⟨⟨jsOrNat (w.meta p).width 0, jsOrNat (w.meta p).height 0,
    jsOrStr (w.meta p).format "unknown", sz⟩, ?_, rfl, ?_, ?_, ?_⟩
  · simp [getImageMetadata, hexists]
  · intro hm; simp [jsOrNat, hm]
  · intro hm; simp [jsOrNat, hm]
  · intro hm; simp [jsOrStr, hm]

/-- Witness for C10 at a 7-byte file whose metadata decodes to no width,
height or format. -/
theorem image_info_missing_metadata_defaults_witness :
    ∃ info, getImageMetadata wPipe "a.png" [("a.png", 7)] = .ok info ∧ info.size = 7
      ∧ ((wPipe.meta "a.png").width = none → info.width = 0)
      ∧ ((wPipe.meta "a.png").height = none → info.height = 0)
      ∧ ((wPipe.meta "a.png").format = none → info.format = "unknown") :=
  image_info_missing_metadata_defaults wPipe "a.png" [("a.png", 7)] 7 (by decide)

/-- Appending different suffixes to one base string yields different
strings. -/
theorem string_append_ne_of_ne (b s1 s2 : String) (hne : s1 ≠ s2) : b ++ s1 ≠ b ++ s2 := by
  intro he
  apply hne
  have hd := congrArg String.data he
  rw [String.data_append, String.data_append] at hd
  exact String.ext (List.append_cancel_left hd)

/-- The deriver is literally a prompt-and-timestamp base followed by the
index suffix. -/
theorem generateFilenameFromPrompt_eq (p : String) (i t : Nat) :
    generateFilenameFromPrompt p i t
      = (String.intercalate "_"
            (if (((promptTokens p).filter keepToken).take 5).isEmpty then ["image"]
             else ((promptTokens p).filter keepToken).take 5)
          ++ "_" ++ toString t)
        ++ (if i > 0 then "_" ++ toString (i + 1) else "") := rfl

/-- C6.  Within one request of up to four outputs, the filenames derived
for two distinct output indices differ, even at the same prompt and the
same timestamp: the `_<index+1>` suffix appended for a positive index
disambiguates them. -/
theorem filenames_pairwise_distinct (p : String) (t i j : Nat)
    (hi : i < 4) (hj : j < 4) (hij : i ≠ j) :
    generateFilenameFromPrompt p i t ≠ generateFilenameFromPrompt p j t := by
  rw [generateFilenameFromPrompt_eq p i t, generateFilenameFromPrompt_eq p j t]
  apply string_append_ne_of_ne
  interval_cases i <;> interval_cases j <;> first
    | exact absurd rfl hij
    | decide

/-- Witness for C6 at indices 0 and 1. -/
theorem filenames_pairwise_distinct_witness :
    generateFilenameFromPrompt "a cat" 0 99 ≠ generateFilenameFromPrompt "a cat" 1 99 :=
  fun h => filenames_pairwise_distinct "a cat" 99 0 1 (by decide) (by decide) (by decide) h

/-- C7.  The filename deriver never returns the empty string; and whenever
every token of the prompt is filtered out (length at most 2 or a stop
word), the index-0 result is exactly `image_<timestamp>`. -/
theorem filename_nonempty_and_fallback :
    (∀ (p : String) (i t : Nat), generateFilenameFromPrompt p i t ≠ "")
    ∧ (∀ (p : String) (t : Nat),
        (∀ w ∈ promptTokens p, w.length ≤ 2 ∨ w ∈ stopWords) →
        generateFilenameFromPrompt p 0 t = "image_" ++ toString t) := by
  constructor
  · intro p i t h
    have hlen := congrArg String.length h
    rw [generateFilenameFromPrompt_eq] at hlen
    simp only [String.length_append] at hlen
    have h1 : ("_" : String).length = 1 := rfl
    have h0 : ("" : String).length = 0 := rfl
    omega
  · intro p t hall
    have hfil : (promptTokens p).filter keepToken = [] := by
      apply List.filter_eq_nil_iff.mpr
      intro w hw
      rcases hall w hw with h | h
      · simp only [keepToken, Bool.and_eq_true, decide_eq_true_eq, not_and]
        intro hgt
        omega
      · intro hk
        simp only [keepToken, Bool.and_eq_true, decide_eq_true_eq, Bool.not_eq_true'] at hk
        have hc : stopWords.contains w = true := List.elem_eq_true_of_mem h
        rw [hk.2] at hc
        exact Bool.false_ne_true hc
    rw [generateFilenameFromPrompt_eq, hfil]
    have h1 : String.intercalate "_" ["image"] = "image" := rfl
    have h2 : (("image" : String) ++ "_") = "image_" := by decide
    simp only [List.take_nil, List.isEmpty_nil, if_true, h1, gt_iff_lt,
      Nat.lt_irrefl, if_false]
    rw [String.append_empty, ← h2]

/-- Witness for C7: a nonempty name, and the fallback at a prompt whose
tokens are all filtered out. -/
theorem filename_nonempty_and_fallback_witness :
    generateFilenameFromPrompt "x" 0 5 ≠ ""
    ∧ generateFilenameFromPrompt "a!!" 0 5 = "image_5" :=
  ⟨filename_nonempty_and_fallback.1 "x" 0 5,
   filename_nonempty_and_fallback.2 "a!!" 5 (by decide)⟩

/-- Inversion of a successful `dacAfterDownload`: the result's path is the
final path, the final path of the returned file system holds exactly the
reported compressed size, and the reported percentage is the shared
rounded formula. -/
theorem dacAfterDownload_ok (w : World) (q : Nat) (temp fp : String) (fs fs1 : FS)
    (r : DacResult) (h : dacAfterDownload w q temp fp fs = (fs1, .ok r)) :
    r.path = fp ∧ fsLookup fs1 fp = some r.compressedSize
    ∧ r.savedPercent = savedPercentCalc r.originalSize r.compressedSize := by
  rw [dacAfterDownload] at h
  split at h
  · exact absurd (congrArg Prod.snd h) (by simp)
  · split at h
    · exact absurd (congrArg Prod.snd h) (by simp)
    · split at h
      · exact absurd (congrArg Prod.snd h) (by simp)
      · rename_i x1 o ho x2 b hb x3 c hc
        injection h with h1 h2
        injection h2 with h3
        subst h1
        subst h3
        exact ⟨rfl, hc, rfl⟩

/-- Inversion of a successful `downloadAndCompressImage`: same conclusions
as `dacAfterDownload_ok`, across any chain of redirects. -/
theorem downloadAndCompressImage_ok (w : World) (q : Nat) :
    ∀ (fuel : Nat) (tmp : Nat → String) (fp url : String) (fs fs1 : FS) (r : DacResult),
    downloadAndCompressImage w q fuel tmp fp url fs = (fs1, .ok r) →
    r.path = fp ∧ fsLookup fs1 fp = some r.compressedSize
    ∧ r.savedPercent = savedPercentCalc r.originalSize r.compressedSize := by
  intro fuel
  induction fuel with
  | zero =>
    intro tmp fp url fs fs1 r h
    exact absurd (congrArg Prod.snd h) (by simp [downloadAndCompressImage])
  | succ n ih =>
    intro tmp fp url fs fs1 r h
    cases hu : w.http url with
    | requestError =>
      simp [downloadAndCompressImage, hu] at h
    | timeout =>
      simp [downloadAndCompressImage, hu] at h
    | response status loc body =>
      by_cases hs : status = 301 ∨ status = 302
      · cases loc with
        | some redirectUrl =>
          simp only [downloadAndCompressImage, hu, decide_eq_true hs] at h
          cases hin : downloadAndCompressImage w q n (fun d => tmp (d + 1)) fp redirectUrl fs with
          | mk fsi res =>
            rw [hin] at h
            cases res with
            | error e => exact absurd (congrArg Prod.snd h) (by simp)
            | ok r0 => exact dacAfterDownload_ok w q (tmp 0) fp fsi fs1 r h
        | none =>
          have h200 : status ≠ 200 := by rcases hs with rfl | rfl <;> omega
          simp [downloadAndCompressImage, hu, decide_eq_true hs, h200] at h
      · simp only [downloadAndCompressImage, hu, decide_eq_false hs] at h
        by_cases h200 : status = 200
        · subst h200
          simp only [ne_eq, not_true_eq_false, if_false] at h
          cases body with
          | streamError => exact absurd (congrArg Prod.snd h) (by simp)
          | bytes m => exact dacAfterDownload_ok w q (tmp 0) fp _ fs1 r h
        · simp [h200] at h

/-- C8.  The reported saved percentage is
`round((1 - compressedSize/originalSize) * 100)` — the code's
half-up `Math.round` coincides with the mathematical `round` — where the
compressed size is the byte length of the produced output file; the value
is not clamped, and is negative whenever `200 * compressedSize` exceeds
`201 * originalSize` (i.e. the output is more than 100.5% of the input). -/
theorem saved_percent_formula :
    (∀ originalSize compressedSize : Nat, 0 < originalSize →
      savedPercentCalc originalSize compressedSize
        = round ((1 - (compressedSize : ℚ) / (originalSize : ℚ)) * 100))
    ∧ (∀ (w : World) (ip op : String) (q : Nat) (mw mh : Option Nat) (fs fs1 : FS)
        (r : CompressStats), compressImage w ip op q mw mh fs = (fs1, .ok r) →
        fsLookup fs1 op = some r.compressedSize
        ∧ r.savedPercent = savedPercentCalc r.originalSize r.compressedSize)
    ∧ (∀ (w : World) (q fuel : Nat) (tmp : Nat → String) (fp url : String) (fs fs1 : FS)
        (r : DacResult), downloadAndCompressImage w q fuel tmp fp url fs = (fs1, .ok r) →
        fsLookup fs1 r.path = some r.compressedSize
        ∧ r.savedPercent = savedPercentCalc r.originalSize r.compressedSize)
    ∧ (∀ originalSize compressedSize : Nat, 0 < originalSize →
        201 * originalSize < 200 * compressedSize →
        savedPercentCalc originalSize compressedSize < 0) := by
  refine ⟨?_, ?_, ?_, ?_⟩
  · intro o c _
    rw [savedPercentCalc, jsMathRound, round_eq]
  · intro w ip op q mw mh fs fs1 r h
    rw [compressImage] at h
    split at h
    · exact absurd (congrArg Prod.snd h) (by simp)
    · split at h
      · exact absurd (congrArg Prod.snd h) (by simp)
      · split at h
        · exact absurd (congrArg Prod.snd h) (by simp)
        · rename_i x1 o ho x2 b hb x3 c hc
          injection h with h1 h2
          injection h2 with h3
          subst h1
          subst h3
          exact ⟨hc, rfl⟩
  · intro w q fuel tmp fp url fs fs1 r h
    have := downloadAndCompressImage_ok w q fuel tmp fp url fs fs1 r h
    rw [this.1]
    exact this.2
  · intro o c ho h
    rw [savedPercentCalc, jsMathRound]
    have ho' : (0 : ℚ) < (o : ℚ) := by exact_mod_cast ho
    have h' : (201 : ℚ) * (o : ℚ) < 200 * (c : ℚ) := by exact_mod_cast h
    have hx : (1 - (c : ℚ) / (o : ℚ)) * 100 + 1 / 2 < 0 := by
      have hdiv : (201 : ℚ) / 200 < (c : ℚ) / (o : ℚ) := by
        rw [div_lt_div_iff₀ (by norm_num) ho']
        linarith
      nlinarith [hdiv, ho']
    exact_mod_cast Int.floor_lt.mpr (by push_cast; linarith)

/-- Witness for C8: the rounding identity, a negative (unclamped)
percentage, and concrete `compressImage` / `downloadAndCompressImage`
runs whose reported compressed size is the output file's byte length. -/
theorem saved_percent_formula_witness :
    savedPercentCalc 100 50 = round ((1 - (50 : ℚ) / (100 : ℚ)) * 100)
    ∧ savedPercentCalc 100 201 < 0
    ∧ fsLookup [("out/c.jpg", 50), ("in.png", 100)] "out/c.jpg" = some 50
    ∧ fsLookup [("out/f.jpg", 50)] "out/f.jpg" = some 50 := by
  refine ⟨saved_percent_formula.1 100 50 (by norm_num),
    saved_percent_formula.2.2.2 100 201 (by norm_num) (by norm_num), ?_, ?_⟩
  · exact (saved_percent_formula.2.1 wPipe "in.png" "out/c.jpg" 85 none none
      [("in.png", 100)] [("out/c.jpg", 50), ("in.png", 100)]
      ⟨100, 50, savedPercentCalc 100 50⟩ rfl).1
  · exact (saved_percent_formula.2.2.1 wPipe 85 1 tmpF "out/f.jpg" "u0" []
      [("out/f.jpg", 50)] ⟨"out/f.jpg", 100, 50, savedPercentCalc 100 50⟩ rfl).1

/-- C1 counterexample.  A download that succeeds (HTTP 200, 100 bytes)
followed by a failing compression leaves the temp file on disk: the step
throws `compressionError` and the returned file system still holds the
temp path — the claimed "deleted on success or failure" is false on the
failure side. -/
theorem temp_file_survives_compression_failure :
    downloadAndCompressImage wCFail 85 1 tmpF "out/final.jpg" "u0" []
      = ([(tmpF 0, 100)], .error .compressionError)
    ∧ fsLookup [(tmpF 0, 100)] (tmpF 0) = some 100 := ⟨rfl, rfl⟩

/-- C1 as amended.  After a direct 200 download of `n` bytes: if the
compression succeeds the step returns a success and the temp file is no
longer present; if the compression fails the step throws and the temp
file remains on disk with the downloaded `n` bytes. -/
theorem temp_cleanup_amended (w : World) (q fuel : Nat) (tmp : Nat → String)
    (fp url : String) (fs : FS) (n : Nat) (loc : Option String)
    (hhttp : w.http url = .response 200 loc (.bytes n)) :
    (∀ m, w.compressFn q none none n = some m → fp ≠ tmp 0 →
      ∃ fs1 r, downloadAndCompressImage w q (fuel + 1) tmp fp url fs = (fs1, .ok r)
        ∧ fsLookup fs1 (tmp 0) = none)
    ∧ (w.compressFn q none none n = none →
      ∃ fs1, downloadAndCompressImage w q (fuel + 1) tmp fp url fs
          = (fs1, .error .compressionError)
        ∧ fsLookup fs1 (tmp 0) = some n) := by
  have hstep : downloadAndCompressImage w q (fuel + 1) tmp fp url fs
      = dacAfterDownload w q (tmp 0) fp (fsInsert fs (tmp 0) n) := by
    simp [downloadAndCompressImage, hhttp]
  constructor
  · intro m hm hne
    have hlk : fsLookup (fsDelete (fsInsert (fsInsert fs (tmp 0) n) fp m) (tmp 0)) fp
        = some m := by
      rw [fsLookup_delete_ne _ _ _ hne, fsLookup_insert_self]
    refine ⟨fsDelete (fsInsert (fsInsert fs (tmp 0) n) fp m) (tmp 0),
      ⟨fp, n, m, savedPercentCalc n m⟩, ?_, fsLookup_delete_self _ _⟩
    rw [hstep]
    simp [dacAfterDownload, fsLookup_insert_self, hm, hlk]
  · intro hm
    refine ⟨fsInsert fs (tmp 0) n, ?_, fsLookup_insert_self fs (tmp 0) n⟩
    rw [hstep]
    simp [dacAfterDownload, fsLookup_insert_self, hm]

/-- Witness for the amended C1: cleanup after a successful compression,
and the surviving temp file after a failing one. -/
theorem temp_cleanup_amended_witness :
    (∃ fs1 r, downloadAndCompressImage wPipe 85 1 tmpF "out/final.jpg" "u0" [] = (fs1, .ok r)
        ∧ fsLookup fs1 (tmpF 0) = none)
    ∧ (∃ fs1, downloadAndCompressImage wCFail 85 1 tmpF "out/final.jpg" "u0" []
          = (fs1, .error .compressionError)
        ∧ fsLookup fs1 (tmpF 0) = some 100) :=
  ⟨(temp_cleanup_amended wPipe 85 0 tmpF "out/final.jpg" "u0" [] 100 none rfl).1 50 rfl
      (by decide),
   (temp_cleanup_amended wCFail 85 0 tmpF "out/final.jpg" "u0" [] 100 none rfl).2 rfl⟩

/-- C2.  On a 302-with-Location response the standalone `downloadImage`
correctly repeats the fetch and resolves with the same destination path;
but `downloadAndCompressImage` discards its recursive call's result and
then calls `statSync` on its own never-created temp file, so the combined
step throws even though the compressed artifact has been written at the
destination: the redirect contract of the claim holds for the standalone
download and is broken by the pipeline step. -/
theorem redirect_pipeline_divergence :
    downloadImage wPipe 2 "r" "out/pic.jpg" [] = ([("out/pic.jpg", 100)], .ok "out/pic.jpg")
    ∧ downloadAndCompressImage wPipe 85 2 tmpF "out/pic.jpg" "r" []
        = ([("out/pic.jpg", 50)], .error (.statError (tmpF 0)))
    ∧ fsLookup [("out/pic.jpg", 50)] "out/pic.jpg" = some 50 := ⟨rfl, rfl, rfl⟩

/-- Frame property of the post-download phase: paths other than the temp
and final path are untouched. -/
theorem dacAfterDownload_frame (w : World) (q : Nat) (temp fp : String) (fs : FS) (x : String)
    (hxt : x ≠ temp) (hxf : x ≠ fp) :
    fsLookup (dacAfterDownload w q temp fp fs).1 x = fsLookup fs x := by
  rw [dacAfterDownload]
  split
  · rfl
  · split
    · rfl
    · split
      · rw [fsLookup_delete_ne _ _ _ hxt, fsLookup_insert_ne _ _ _ _ hxf]
      · rw [fsLookup_delete_ne _ _ _ hxt, fsLookup_insert_ne _ _ _ _ hxf]

/-- Frame property of the whole per-URL step: whether it succeeds or
throws, it touches only its temp paths (one per redirect depth, bounded
by the fuel) and the final path. -/
theorem downloadAndCompressImage_frame (w : World) (q : Nat) :
    ∀ (fuel : Nat) (tmp : Nat → String) (fp url : String) (fs : FS) (x : String),
    (∀ d, d < fuel → x ≠ tmp d) → x ≠ fp →
    fsLookup (downloadAndCompressImage w q fuel tmp fp url fs).1 x = fsLookup fs x := by
  intro fuel
  induction fuel with
  | zero => intro tmp fp url fs x _ _; rfl
  | succ n ih =>
    intro tmp fp url fs x hT hF
    have hT0 : x ≠ tmp 0 := hT 0 (Nat.succ_pos n)
    cases hu : w.http url with
    | requestError => simp [downloadAndCompressImage, hu]
    | timeout => simp [downloadAndCompressImage, hu]
    | response status loc body =>
      by_cases hs : status = 301 ∨ status = 302
      · cases loc with
        | some redirectUrl =>
          simp only [downloadAndCompressImage, hu, decide_eq_true hs]
          have hrec := ih (fun d => tmp (d + 1)) fp redirectUrl fs x
            (fun d hd => hT (d + 1) (Nat.succ_lt_succ hd)) hF
          cases hin : downloadAndCompressImage w q n (fun d => tmp (d + 1)) fp redirectUrl fs with
          | mk fs1 res =>
            rw [hin] at hrec
            cases res with
            | error e => exact hrec
            | ok r =>
              exact (dacAfterDownload_frame w q (tmp 0) fp fs1 x hT0 hF).trans hrec
        | none =>
          have h200 : status ≠ 200 := by rcases hs with rfl | rfl <;> omega
          simp [downloadAndCompressImage, hu, decide_eq_true hs, h200]
      · simp only [downloadAndCompressImage, hu, decide_eq_false hs]
        by_cases h200 : status = 200
        · subst h200
          simp only [ne_eq, not_true_eq_false, if_false]
          cases body with
          | streamError =>
            rw [fsLookup_delete_ne _ _ _ hT0, fsLookup_insert_ne _ _ _ _ hT0]
          | bytes m =>
            exact (dacAfterDownload_frame w q (tmp 0) fp _ x hT0 hF).trans
              (fsLookup_insert_ne fs (tmp 0) x m hT0)
        · simp [h200]

/-- Frame property of the per-URL loop: whether it succeeds or aborts on
an error, it touches only the final paths and temp paths of the indices
it covers. -/
theorem generateLoop_frame (w : World) (q fuel : Nat) (p : String) :
    ∀ (urls : List String) (i : Nat) (fs : FS) (x : String),
    (∀ k, i ≤ k → k < i + urls.length → x ≠ finalPathOf w p k) →
    (∀ k d, i ≤ k → k < i + urls.length → d < fuel → x ≠ tmpPathOf w k d) →
    fsLookup (generateLoop w q fuel (some p) i urls fs).1 x = fsLookup fs x := by
  intro urls
  induction urls with
  | nil => intro i fs x _ _; rfl
  | cons url rest ih =>
    intro i fs x hF hT
    simp only [List.length_cons] at hF hT
    have hFi : x ≠ finalPathOf w p i := hF i (le_refl i) (by omega)
    have hTi : ∀ d, d < fuel → x ≠ tmpPathOf w i d :=
      fun d hd => hT i d (le_refl i) (by omega) hd
    have hstep := downloadAndCompressImage_frame w q fuel (tmpPathOf w i)
      (finalPathOf w p i) url fs x hTi hFi
    cases hin : downloadAndCompressImage w q fuel (tmpPathOf w i) (finalPathOf w p i) url fs with
    | mk fs1 res =>
      rw [hin] at hstep
      cases res with
      | error e =>
        simp only [generateLoop, hin]
        exact hstep
      | ok r =>
        simp only [generateLoop, hin]
        have hrest := ih (i + 1) fs1 x
          (fun k hk1 hk2 => hF k (by omega) (by omega))
          (fun k d hk1 hk2 hd => hT k d (by omega) (by omega) hd)
        cases hrest2 : generateLoop w q fuel (some p) (i + 1) rest fs1 with
        | mk fs2 res2 =>
          rw [hrest2] at hrest
          cases res2 with
          | error e => exact hrest.trans hstep
          | ok rs => exact hrest.trans hstep

/-- A successful run of the per-URL loop produces one result per URL, and
the final path of index `i + j` holds exactly the reported compressed
size of the `j`-th result, provided the final and temp paths of the
covered indices do not collide. -/
theorem generateLoop_ok_writes (w : World) (q fuel : Nat) (p : String) :
    ∀ (urls : List String) (i : Nat) (fs fs1 : FS) (results : List DacResult),
    generateLoop w q fuel (some p) i urls fs = (fs1, .ok results) →
    (∀ a b, i ≤ a → a < b → b < i + urls.length →
      finalPathOf w p a ≠ finalPathOf w p b) →
    (∀ a k d, i ≤ a → a < k → k < i + urls.length → d < fuel →
      finalPathOf w p a ≠ tmpPathOf w k d) →
    results.length = urls.length
    ∧ ∀ j, j < urls.length → ∃ r, results[j]? = some r
        ∧ fsLookup fs1 (finalPathOf w p (i + j)) = some r.compressedSize := by
  intro urls
  induction urls with
  | nil =>
    intro i fs fs1 results h _ _
    injection h with h1 h2
    injection h2 with h3
    subst h1
    subst h3
    exact ⟨rfl, fun j hj => absurd hj (by simp)⟩
  | cons url rest ih =>
    intro i fs fs1 results h hDF hDT
    simp only [List.length_cons] at hDF hDT
    cases hin : downloadAndCompressImage w q fuel (tmpPathOf w i) (finalPathOf w p i) url fs with
    | mk fsa resa =>
      cases resa with
      | error e =>
        simp only [generateLoop, hin] at h
        exact absurd (congrArg Prod.snd h) (by simp)
      | ok r =>
        simp only [generateLoop, hin] at h
        cases hrest : generateLoop w q fuel (some p) (i + 1) rest fsa with
        | mk fsb resb =>
          rw [hrest] at h
          cases resb with
          | error e => exact absurd (congrArg Prod.snd h) (by simp)
          | ok rs =>
            injection h with h1 h2
            injection h2 with h3
            subst h1
            subst h3
            have ihres := ih (i + 1) fsa fsb rs hrest
              (fun a b ha hab hb => hDF a b (by omega) hab (by omega))
              (fun a k d ha hak hk hd => hDT a k d (by omega) hak (by omega) hd)
            constructor
            · simp [ihres.1]
            · intro j hj
              simp only [List.length_cons] at hj
              cases j with
              | zero =>
                have hok := downloadAndCompressImage_ok w q fuel (tmpPathOf w i)
                  (finalPathOf w p i) url fs fsa r hin
                have hkeep := generateLoop_frame w q fuel p rest (i + 1) fsa
                  (finalPathOf w p i)
                  (fun k hk1 hk2 => hDF i k (le_refl i) (by omega) (by omega))
                  (fun k d hk1 hk2 hd => hDT i k d (le_refl i) (by omega) (by omega) hd)
                rw [hrest] at hkeep
                refine ⟨r, by simp, ?_⟩
                rw [Nat.add_zero]
                exact hkeep.trans hok.2.1
              | succ j0 =>
                obtain ⟨r0, hr0, hl0⟩ := ihres.2 j0 (by omega)
                refine ⟨r0, ?_, ?_⟩
                · simpa using hr0
                · have harith : i + (j0 + 1) = (i + 1) + j0 := by omega
                  rw [harith]
                  exact hl0

/-- The per-URL loop on a concatenation runs the first segment and, if it
succeeds, continues with the second segment at the shifted index. -/
theorem generateLoop_append (w : World) (q fuel : Nat) (p : String) :
    ∀ (us vs : List String) (i : Nat) (fs : FS),
    generateLoop w q fuel (some p) i (us ++ vs) fs
      = match generateLoop w q fuel (some p) i us fs with
        | (fs1, .error e) => (fs1, .error e)
        | (fs1, .ok rs) =>
          match generateLoop w q fuel (some p) (i + us.length) vs fs1 with
          | (fs2, .error e) => (fs2, .error e)
          | (fs2, .ok rs2) => (fs2, .ok (rs ++ rs2)) := by
  intro us
  induction us with
  | nil =>
    intro vs i fs
    simp only [List.nil_append, List.length_nil, Nat.add_zero, generateLoop]
    cases hv : generateLoop w q fuel (some p) i vs fs with
    | mk fs2 res2 => cases res2 <;> simp
  | cons u us ih =>
    intro vs i fs
    simp only [List.cons_append, List.length_cons]
    cases hin : downloadAndCompressImage w q fuel (tmpPathOf w i) (finalPathOf w p i) u fs with
    | mk fsa resa =>
      cases resa with
      | error e => simp only [generateLoop, hin]
      | ok r =>
        simp only [generateLoop, hin, ih vs (i + 1) fsa]
        have harith : i + 1 + us.length = i + (us.length + 1) := by omega
        rw [harith]
        cases h1 : generateLoop w q fuel (some p) (i + 1) us fsa with
        | mk fsb resb =>
          cases resb with
          | error e => rfl
          | ok rs =>
            cases h2 : generateLoop w q fuel (some p) (i + (us.length + 1)) vs fsb with
            | mk fsc resc =>
              dsimp only
              rw [h2]
              cases resc <;> rfl

/-- C3.  When the backend returns several URLs and the download-or-compress
step fails at an index past the first, the whole `generate_image` call
returns the error envelope, and the compressed files already produced for
the earlier indices are still on disk, holding exactly the reported bytes
(no rollback).  The freshness hypotheses say the derived final names and
the random temp names of the request do not collide — the source's
timestamp-and-index naming scheme. -/
theorem generate_failure_keeps_earlier_outputs
    (w : World) (fuel : Nat) (a : Args) (fs fsa fs2 : FS)
    (p : String) (cfg : ModelConfig) (urls0 urls1 : List String) (url : String)
    (results : List DacResult) (e : StepError)
    (hp : a.prompt = some p)
    (hm : lookupModel (a.model.getD DEFAULT_MODEL) = some cfg)
    (href : a.reference_image = none)
    (htok : w.apiToken.isSome = true)
    (hrun : w.runModel cfg.id = .ok (urls0 ++ url :: urls1))
    (_hpos : 0 < urls0.length)
    (h0 : generateLoop w (a.compression_quality.getD DEFAULT_COMPRESSION_QUALITY) fuel
        (some p) 0 urls0 fs = (fsa, .ok results))
    (hfail : generateLoop w (a.compression_quality.getD DEFAULT_COMPRESSION_QUALITY) fuel
        (some p) urls0.length (url :: urls1) fsa = (fs2, .error e))
    (hDF : ∀ b, b < urls0.length + (url :: urls1).length → ∀ c, c < b →
      finalPathOf w p c ≠ finalPathOf w p b)
    (hDT : ∀ k, k < urls0.length + (url :: urls1).length → ∀ d, d < fuel → ∀ c, c < k →
      finalPathOf w p c ≠ tmpPathOf w k d) :
    handleToolCall w fuel "generate_image" a fs = (fs2, .err (stepErrorMessage e))
    ∧ ∀ j, j < urls0.length → ∃ r, results[j]? = some r
        ∧ fsLookup fs2 (finalPathOf w p j) = some r.compressedSize := by
  obtain ⟨tok, htok2⟩ := Option.isSome_iff_exists.mp htok
  have hfull : generateLoop w (a.compression_quality.getD DEFAULT_COMPRESSION_QUALITY) fuel
      (some p) 0 (urls0 ++ url :: urls1) fs = (fs2, .error e) := by
    rw [generateLoop_append, h0]
    dsimp only
    rw [Nat.zero_add, hfail]
  constructor
  · simp [handleToolCall, handleGenerateImage, hm, href, htok2, hp, hrun, hfull]
  · intro j hj
    have hwrites := generateLoop_ok_writes w
      (a.compression_quality.getD DEFAULT_COMPRESSION_QUALITY) fuel p urls0 0 fs fsa results h0
      (fun a2 b ha hab hb => hDF b (by omega) a2 hab)
      (fun a2 k d ha hak hk hd => hDT k (by omega) d hd a2 hak)
    obtain ⟨r, hr, hl⟩ := hwrites.2 j hj
    refine ⟨r, hr, ?_⟩
    have hframe := generateLoop_frame w
      (a.compression_quality.getD DEFAULT_COMPRESSION_QUALITY) fuel p (url :: urls1)
      urls0.length fsa (finalPathOf w p j)
      (fun k hk1 hk2 => hDF k (by omega) j (by omega))
      (fun k d hk1 hk2 hd => hDT k (by omega) d hd j (by omega))
    rw [hfail] at hframe
    have hframe2 : fsLookup fs2 (finalPathOf w p j) = fsLookup fsa (finalPathOf w p j) :=
      hframe
    rw [hframe2]
    simpa using hl

/-- Witness for C3: two backend URLs, the first downloads and compresses
to `out/image_0.jpg`, the second answers 404; the call reports the
failure envelope and the first file is still on disk. -/
theorem generate_failure_keeps_earlier_outputs_witness :
    handleToolCall wPipe 1 "generate_image" { prompt := some "" } []
      = ([("out/image_0.jpg", 50)], .err (stepErrorMessage (.httpError 404)))
    ∧ ∀ j, j < (["u0"] : List String).length →
        ∃ r, ([⟨"out/image_0.jpg", 100, 50, savedPercentCalc 100 50⟩]
            : List DacResult)[j]? = some r
          ∧ fsLookup [("out/image_0.jpg", 50)] (finalPathOf wPipe "" j)
              = some r.compressedSize :=
  generate_failure_keeps_earlier_outputs wPipe 1 { prompt := some "" }
    [] [("out/image_0.jpg", 50)] [("out/image_0.jpg", 50)] ""
    ⟨"google-deepmind/imagen-3.0-generate-001", "Google Imagen 3", "replicate",
      false, "$0.04", "Google's latest image generation model. High quality."⟩
    ["u0"] [] "u1" [⟨"out/image_0.jpg", 100, 50, savedPercentCalc 100 50⟩]
    (.httpError 404) rfl rfl rfl rfl rfl (by decide) rfl rfl (by decide) (by decide)
